import Mathlib

/-!
Shallow embedding of the condition engine of
`src/packages/react-form-renderer/src/form-renderer/condition.js`
(`fieldCondition`, `parseCondition`, `reducer`, and the commit logic of the
`Condition` component), together with theorems settling the claims about it.

JavaScript values are modelled by `JSValue`.  Numbers are modelled by `Int`
(the claims never exercise float-specific behaviour such as `NaN`).  JS strict
equality on two distinct object or array literals is reference equality and
therefore `false`; schema literals and form values are distinct object graphs,
so `jsStrictEq` returns `false` whenever either side is a container.
-/

inductive JSValue where
  | undef
  | null
  | bool (b : Bool)
  | num (n : Int)
  | str (s : String)
  | arr (xs : List JSValue)
  | obj (fields : List (String × JSValue))

/-- An assignment map (JS object of field name to value), e.g. the `set`
payload of a `then` or `else` override. -/
abbrev SetMap := List (String × JSValue)

mutual
/-- Structural equality of JS values, modelling both `===` on primitives and
(at container types) lodash `isEqual`.  Object keys are compared in order:
all objects compared by the runtime come out of the same evaluator on the
same schema, so their key order coincides. -/
def jsBeq : JSValue → JSValue → Bool
  | .undef, .undef => true
  | .null, .null => true
  | .bool a, .bool b => a == b
  | .num a, .num b => a == b
  | .str a, .str b => a == b
  | .arr xs, .arr ys => jsListBeq xs ys
  | .obj fs, .obj gs => jsFieldsBeq fs gs
  | _, _ => false

/-- Elementwise `jsBeq` on JS arrays. -/
def jsListBeq : List JSValue → List JSValue → Bool
  | [], [] => true
  | x :: xs, y :: ys => jsBeq x y && jsListBeq xs ys
  | _, _ => false

/-- Fieldwise `jsBeq` on JS objects (ordered association lists). -/
def jsFieldsBeq : List (String × JSValue) → List (String × JSValue) → Bool
  | [], [] => true
  | p :: fs, q :: gs => p.1 == q.1 && jsBeq p.2 q.2 && jsFieldsBeq fs gs
  | _, _ => false
end

mutual
theorem jsBeq_refl : ∀ v, jsBeq v v = true
  | .undef => rfl
  | .null => rfl
  | .bool b => by simp [jsBeq]
  | .num n => by simp [jsBeq]
  | .str s => by simp [jsBeq]
  | .arr xs => by simp [jsBeq, jsListBeq_refl xs]
  | .obj fs => by simp [jsBeq, jsFieldsBeq_refl fs]

theorem jsListBeq_refl : ∀ xs, jsListBeq xs xs = true
  | [] => rfl
  | x :: xs => by simp [jsListBeq, jsBeq_refl x, jsListBeq_refl xs]

theorem jsFieldsBeq_refl : ∀ fs, jsFieldsBeq fs fs = true
  | [] => rfl
  | p :: fs => by simp [jsFieldsBeq, jsBeq_refl p.2, jsFieldsBeq_refl fs]
end

/-- JS strict equality `===` as used by `value === is` and `is.includes(value)`
(SameValueZero; identical to `===` on our NaN-free value model).  Containers
compare by reference, hence `false` for distinct literals. -/
def jsStrictEq : JSValue → JSValue → Bool
  | .undef, .undef => true
  | .null, .null => true
  | .bool a, .bool b => a == b
  | .num a, .num b => a == b
  | .str a, .str b => a == b
  | _, _ => false

/-- lodash `isEmpty`: `true` for `null`/`undefined` and for every
non-collection primitive (numbers and booleans included); strings and
containers are empty iff they have no elements. -/
def lodashIsEmpty : JSValue → Bool
  | .undef => true
  | .null => true
  | .bool _ => true
  | .num _ => true
  | .str s => s.isEmpty
  | .arr xs => xs.isEmpty
  | .obj fs => fs.isEmpty

/-- Source: `const isEmptyValue = (value) => (typeof value === 'number' ||
value === true ? false : lodashIsEmpty(value));` -/
def isEmptyValue (value : JSValue) : Bool :=
  if (match value with | .num _ => true | .bool true => true | _ => false) then false
  else lodashIsEmpty value

/-- First binding of a key in a JS object (object keys are unique). -/
def lookupField : List (String × JSValue) → String → Option JSValue
  | [], _ => none
  | p :: fs, k => if p.1 == k then some p.2 else lookupField fs k

/-- Walk one path segment list through nested objects/arrays; any miss or
non-container step yields `undefined`, as lodash `get` does. -/
def getPath : JSValue → List String → JSValue
  | v, [] => v
  | .obj fs, k :: rest =>
      match lookupField fs k with
      | some v => getPath v rest
      | none => .undef
  | .arr xs, k :: rest =>
      match k.toNat? with
      | some i =>
          match xs.get? i with
          | some v => getPath v rest
          | none => .undef
      | none => .undef
  | _, _ => .undef
termination_by structural _ l => l

/-- Split a path string at every dot (`"a.b"` gives `["a", "b"]`, a string
without dots gives the one-element list). -/
def splitPathAux : List Char → List Char → List String
  | [], acc => [String.mk acc.reverse]
  | c :: rest, acc =>
      if c = '.' then String.mk acc.reverse :: splitPathAux rest []
      else splitPathAux rest (c :: acc)

/-- Dotted-path segments of a field name. -/
def splitPath (s : String) : List String :=
  splitPathAux s.data []

/-- lodash `get(values, path)` for dotted string paths (the shape the
condition schema uses). -/
def lodashGet (values : JSValue) (path : String) : JSValue :=
  getPath values (splitPath path)

/-- The leaf test fields destructured by `fieldCondition`:
`\x7b is, isNotEmpty, isEmpty, pattern, notMatch, flags \x7d`.  Absent JS
properties are `none` / `false` / `JSValue.undef` (all falsy). -/
structure FieldTest where
  is : JSValue := .undef
  isNotEmpty : Bool := false
  isEmpty : Bool := false
  pattern : Option String := none
  notMatch : Bool := false
  flags : Option String := none

/-- The shape of a `then` / `else` override object.  The JS spread
`...condition.then` copies every key of the object, so a `result` key,
although outside the documented shape, is modelled as well. -/
structure COverride where
  visible : Option Bool := none
  result : Option Bool := none
  set : Option SetMap := none

/-- The `when` property: a single field name or an array of field names. -/
inductive WhenProp where
  | single (name : String)
  | multi (names : List String)

/-- A condition expression: either a bare array of conditions or a node
object.  A node carries every recognised property; `parseCondition` tests
them for truthiness in source order (`and`, `sequence`, `or`, `not`,
string `when`, array `when`).  `some []` models a present-but-empty JS
array, which is truthy. -/
inductive Cond where
  | list (children : List Cond)
  | node (andC : Option (List Cond)) (sequenceC : Option (List Cond))
      (orC : Option (List Cond)) (notC : Option Cond) (whenC : Option WhenProp)
      (test : FieldTest) (thenC : Option COverride) (elseC : Option COverride)

/-- The evaluator's result object.  `set` / `sets` are absent (`none`) unless
an override or a `sequence` introduced them. -/
structure EvalResult where
  visible : Bool
  result : Bool
  set : Option SetMap := none
  sets : Option (List SetMap) := none

/-- Source: `let positiveResult = \x7b visible: true, ...condition.then,
result: true \x7d;` — the spread may override `visible` and contribute `set`,
but the trailing `result: true` overwrites any `result` key of the spread. -/
def positiveResult (thenC : Option COverride) : EvalResult :=
  { visible := (thenC.bind COverride.visible).getD true
    result := true
    set := thenC.bind COverride.set
    sets := none }

/-- Source: `let negativeResult = \x7b visible: false, ...condition.else,
result: false \x7d;` — dual of `positiveResult`. -/
def negativeResult (elseC : Option COverride) : EvalResult :=
  { visible := (elseC.bind COverride.visible).getD false
    result := false
    set := elseC.bind COverride.set
    sets := none }

/-- The regular-expression engine is a JS builtin external to this
repository; `RegExp(pattern, flags).test(value)` is abstracted as an oracle
taking the pattern source, the optional flags and the (stringified) value. -/
abbrev RegexTest := String → Option String → JSValue → Bool

/-- Truthiness of the `pattern` property: a present, non-empty pattern
string (the empty string is falsy in JS). -/
def patternTruthy : Option String → Bool
  | some p => p != ""
  | none => false

/-- Source: `const isMatched = Array.isArray(is) ? !!is.includes(value) :
value === is;` -/
def isMatchedTest (isC : JSValue) (value : JSValue) : Bool :=
  match isC with
  | .arr xs => xs.any (fun x => jsStrictEq x value)
  | i => jsStrictEq value i

/-- Source: `fieldCondition(value, \x7b is, isNotEmpty, isEmpty, pattern,
notMatch, flags \x7d)`, a cascade of early returns in source order. -/
def fieldCondition (rt : RegexTest) (value : JSValue) (t : FieldTest) : Bool :=
  if t.isNotEmpty then !isEmptyValue value
  else if t.isEmpty then isEmptyValue value
  else if patternTruthy t.pattern then
    (if t.notMatch then !(rt (t.pattern.getD "") t.flags value)
     else rt (t.pattern.getD "") t.flags value)
  else
    (if t.notMatch then !(isMatchedTest t.is value) else isMatchedTest t.is value)

mutual
/-- Source: `export const parseCondition = (condition, values) => ...` —
the branch order mirrors the source's truthiness checks exactly. -/
def parseCondition (rt : RegexTest) : Cond → JSValue → EvalResult
  | .list cs, values =>
      if (parseCondList rt cs values).any (fun r => r.result == false) then
        negativeResult none
      else positiveResult none
  | .node andC seqC orC notC whenC t thenC elseC, values =>
      match andC with
      | some cs =>
          if (parseCondList rt cs values).any (fun r => r.result == false) then
            negativeResult elseC
          else positiveResult thenC
      | none =>
      match seqC with
      | some cs =>
          seqFold rt values { negativeResult elseC with sets := some [] } cs
      | none =>
      match orC with
      | some cs =>
          if (parseCondList rt cs values).any (fun r => r.result == true) then
            positiveResult thenC
          else negativeResult elseC
      | none =>
      match notC with
      | some c =>
          if !(parseCondition rt c values).result then positiveResult thenC
          else negativeResult elseC
      | none =>
      match whenC with
      | some (.single w) =>
          if fieldCondition rt (lodashGet values w) t then positiveResult thenC
          else negativeResult elseC
      | some (.multi ws) =>
          if ws.any (fun f => fieldCondition rt (lodashGet values f) t) then
            positiveResult thenC
          else negativeResult elseC
      | none => negativeResult elseC
termination_by structural c _ => c

/-- `condition.map((condition) => parseCondition(condition, values))`. -/
def parseCondList (rt : RegexTest) : List Cond → JSValue → List EvalResult
  | [], _ => []
  | c :: cs, values => parseCondition rt c values :: parseCondList rt cs values
termination_by structural l _ => l

/-- The `condition.sequence.reduce` body: each step returns an object with
only `sets`, `visible` and `result` keys (so the accumulator's `set` key is
dropped after the first step), accumulating every truthy child `set`. -/
def seqFold (rt : RegexTest) (values : JSValue) : EvalResult → List Cond → EvalResult
  | acc, [] => acc
  | acc, c :: cs =>
      seqFold rt values
        { visible := acc.visible || (parseCondition rt c values).visible
          result := acc.result || (parseCondition rt c values).result
          set := none
          sets := some ((acc.sets.getD []) ++
            (match (parseCondition rt c values).set with
             | some s => [s]
             | none => [])) } cs
termination_by structural _ l => l
end

/-- A regex oracle used in concrete witnesses where the pattern branch is
not exercised. -/
def rtFalse : RegexTest := fun _ _ _ => false

/-!
The reactive runtime: the `reducer` driven by `useReducer`, and the commit
logic of the two `useEffect` blocks of the `Condition` component.
-/

/-- The `useReducer` state: the remembered assignment list and the
`initial` flag. -/
structure RuntimeState where
  sets : List SetMap
  initial : Bool

/-- The actions dispatched to `reducer`; `other` covers the `default`
switch branch. -/
inductive ConditionAction where
  | formResetted
  | rememberSets (sets : List SetMap)
  | other

/-- Source: `export const reducer = (state, \x7b type, sets \x7d) => ...` —
note that `formResetted` only flips `initial` and leaves `state.sets`
untouched. -/
def reducer (state : RuntimeState) (action : ConditionAction) : RuntimeState :=
  match action with
  | .formResetted => { state with initial := true }
  | .rememberSets sets => { state with initial := false, sets := sets }
  | .other => state

/-- lodash `isEqual` on two assignment maps (deep structural equality). -/
def setMapEq (a b : SetMap) : Bool :=
  jsFieldsBeq a b

/-- lodash `isEqual` on two assignment lists. -/
def setsListEq : List SetMap → List SetMap → Bool
  | [], [] => true
  | a :: la, b :: lb => setMapEq a b && setsListEq la lb
  | _, _ => false

theorem setsListEq_refl : ∀ l, setsListEq l l = true
  | [] => rfl
  | a :: la => by simp [setsListEq, setMapEq, jsFieldsBeq_refl a, setsListEq_refl la]

/-- Source: `const setters = conditionResult.set ? [conditionResult.set] :
conditionResult.sets;` — a present `set` becomes a one-element list,
otherwise the (possibly absent) `sets` list is used. -/
def computeSetters (r : EvalResult) : Option (List SetMap) :=
  match r.set with
  | some s => some [s]
  | none => r.sets

/-- The per-element guard `setter && (state.initial || !isEqual(setter,
state.sets[index]))`; an element is always a truthy object, and an
out-of-range index reads `undefined`, which `isEqual` never matches. -/
def setterCommits (state : RuntimeState) (index : Nat) (setter : SetMap) : Bool :=
  state.initial ||
    !(match state.sets.get? index with
      | some prev => setMapEq setter prev
      | none => false)

/-- The batches scheduled by one pass of the commit effect: each committed
setter is wrapped in its own `setTimeout(() => formOptions.batch(...))`, so
each list element here is one deferred `batch` call whose writes are exactly
that assignment map's entries in order. -/
def commitBatches (state : RuntimeState) (setters : List SetMap) : List SetMap :=
  (setters.enum.filter (fun p => setterCommits state p.1 p.2)).map (fun p => p.2)

/-- One run of the commit `useEffect`: the outer guard `setters &&
setters.length > 0 && (state.initial || !isEqual(setters, state.sets))`,
the per-element scheduling, and the final `dispatch(\x7b type: 'rememberSets',
sets: setters \x7d)`.  Returns the scheduled batches and the next runtime
state. -/
def runCommit (state : RuntimeState) (settersOpt : Option (List SetMap)) :
    List SetMap × RuntimeState :=
  match settersOpt with
  | none => ([], state)
  | some setters =>
      if setters.length > 0 && (state.initial || !(setsListEq setters state.sets)) then
        (commitBatches state setters, reducer state (.rememberSets setters))
      else ([], state)

/-- The dirty-flag `useEffect`: `if (!dirty) dispatch(\x7b type:
'formResetted' \x7d)`. -/
def onDirtyChange (dirty : Bool) (state : RuntimeState) : RuntimeState :=
  if !dirty then reducer state .formResetted else state

/-- One full evaluation pass of the `Condition` component: evaluate the
expression against the values, derive the candidate assignment list, and run
the commit effect. -/
def evalPass (rt : RegexTest) (cond : Cond) (values : JSValue)
    (state : RuntimeState) : List SetMap × RuntimeState :=
  runCommit state (computeSetters (parseCondition rt cond values))

/-!
Reference definitions written from the claims' own words, used to compare the
source behaviour against the spec text where the two differ.
-/

/-- Follows claim C1's words: the satisfied-node shape with the `then`
overrides spread LAST, i.e. taking precedence over both default fields
(`visible: true, result: true, ...then-overrides`). -/
def specPositiveSpreadLast (thenC : Option COverride) : EvalResult :=
  { visible := (thenC.bind COverride.visible).getD true
    result := (thenC.bind COverride.result).getD true
    set := thenC.bind COverride.set
    sets := none }

/-- Follows claim C7's words: structural emptiness is "empty string, empty
container, null/undefined". -/
def specStructurallyEmpty : JSValue → Bool
  | .undef => true
  | .null => true
  | .str s => s.isEmpty
  | .arr xs => xs.isEmpty
  | .obj fs => fs.isEmpty
  | _ => false

/-- Follows claim C7's words: empty iff the value is neither a number nor
boolean `true` and is structurally empty. -/
def claimEmptiness (v : JSValue) : Bool :=
  !(match v with | .num _ => true | .bool true => true | _ => false) &&
    specStructurallyEmpty v

/-- Follows claim C2's words for the reset transition: `initial = true` and
the remembered sets cleared. -/
def specClearedState : RuntimeState :=
  { sets := [], initial := true }

/-!
Helper lemmas about the evaluator and the commit logic.
-/

theorem any_result_false_eq (rs : List EvalResult) :
    (rs.any fun r => r.result == false) = !(rs.all fun r => r.result) := by
  induction rs with
  | nil => rfl
  | cons r l ih =>
      rw [List.any_cons, List.all_cons, ih]
      cases h : r.result <;> simp [h]

theorem any_result_true_eq (rs : List EvalResult) :
    (rs.any fun r => r.result == true) = rs.any fun r => r.result := by
  induction rs with
  | nil => rfl
  | cons r l ih => cases h : r.result <;> simp [h, ih]

theorem fieldCondition_is (rt : RegexTest) (value isC : JSValue) (nm : Bool) :
    fieldCondition rt value { is := isC, notMatch := nm } =
      Bool.xor (isMatchedTest isC value) nm := by
  cases nm <;> simp [fieldCondition, patternTruthy, Bool.xor]

theorem commitBatches_initial (s : RuntimeState) (h : s.initial = true)
    (ss : List SetMap) : commitBatches s ss = ss := by
  unfold commitBatches
  rw [List.filter_eq_self.mpr (fun p _ => by simp [setterCommits, h])]
  exact List.enum_map_snd ss

theorem commitBatches_sublist (s : RuntimeState) (ss : List SetMap) :
    (commitBatches s ss).Sublist ss := by
  unfold commitBatches
  have h1 := List.filter_sublist (p := fun p => setterCommits s p.1 p.2) ss.enum
  have h2 := h1.map Prod.snd
  rwa [List.enum_map_snd ss] at h2

/-- Claim C7: leaf tests fire in the fixed order `isNotEmpty`, `isEmpty`,
`pattern` (negatable via `notMatch`), then the `is` test, the first present
test deciding; the emptiness predicate holds iff the value is neither a
number nor boolean `true` and is structurally empty — amended: lodash
`isEmpty` also counts boolean `false` (a non-collection primitive) as empty,
so the predicate is the claim's conjunction extended with the
boolean-`false` case. -/
theorem C7_leaf_precedence_emptiness :
    ∀ (rt : RegexTest) (value : JSValue) (t : FieldTest) (p : String),
      (fieldCondition rt value { t with isNotEmpty := true } = !isEmptyValue value) ∧
      (fieldCondition rt value { t with isNotEmpty := false, isEmpty := true } =
        isEmptyValue value) ∧
      (p ≠ "" →
        fieldCondition rt value
            { t with isNotEmpty := false, isEmpty := false, pattern := some p } =
          Bool.xor (rt p t.flags value) t.notMatch) ∧
      (fieldCondition rt value
          { t with isNotEmpty := false, isEmpty := false, pattern := none } =
        Bool.xor (isMatchedTest t.is value) t.notMatch) ∧
      (isEmptyValue value = (claimEmptiness value || jsStrictEq value (.bool false))) := by
  intro rt value t p
  refine ⟨by simp [fieldCondition], by simp [fieldCondition], fun hp => ?_, ?_, ?_⟩
  · have hbne : (p != "") = true := bne_iff_ne.mpr hp
    cases hnm : t.notMatch <;> simp [fieldCondition, patternTruthy, hbne, hnm, Bool.xor]
  · cases hnm : t.notMatch <;> simp [fieldCondition, patternTruthy, hnm, Bool.xor]
  · cases value with
    | bool b =>
        cases b <;>
          simp [isEmptyValue, claimEmptiness, specStructurallyEmpty, lodashIsEmpty, jsStrictEq]
    | _ => simp [isEmptyValue, claimEmptiness, specStructurallyEmpty, lodashIsEmpty, jsStrictEq]

/-- Claim C7 counterexample: lodash `isEmpty` holds for boolean `false`,
which is not structurally empty in the claim's sense (empty string, empty
container, null/undefined), so a leaf with `isEmpty: true` is satisfied by
the value `false` although the claim's predicate rejects it. -/
theorem C7_counterexample :
    isEmptyValue (.bool false) = true ∧ claimEmptiness (.bool false) = false ∧
      fieldCondition rtFalse (.bool false) { isEmpty := true } = true :=
  ⟨rfl, rfl, rfl⟩

/-- Witness for C7 at a concrete leaf: a present non-empty pattern decides
the outcome through the regex oracle. -/
theorem C7_witness :
    fieldCondition rtFalse (.str "q")
        { ({} : FieldTest) with isNotEmpty := false, isEmpty := false, pattern := some "a" } =
      Bool.xor (rtFalse "a" ({} : FieldTest).flags (.str "q")) ({} : FieldTest).notMatch :=
  (C7_leaf_precedence_emptiness rtFalse (.str "q") {} "a").2.2.1 (by decide)

/-- Claim C8: for leaves carrying `is` (with the earlier tests
`isNotEmpty`/`isEmpty`/`pattern` absent and no `then`/`else` overrides),
`visible` is the strict-equality/membership test of the value at path `when`
against `is`, XORed with `notMatch`; an array-valued `when` is satisfied iff
some named field individually satisfies the test. -/
theorem C8_is_test :
    ∀ (rt : RegexTest) (V : JSValue) (w : String) (ws : List String)
      (isC : JSValue) (nm : Bool),
      ((parseCondition rt
          (.node none none none none (some (.single w)) { is := isC, notMatch := nm }
            none none) V).visible =
        Bool.xor (isMatchedTest isC (lodashGet V w)) nm) ∧
      ((parseCondition rt
          (.node none none none none (some (.multi ws)) { is := isC, notMatch := nm }
            none none) V).visible =
        ws.any fun f => Bool.xor (isMatchedTest isC (lodashGet V f)) nm) := by
  intro rt V w ws isC nm
  constructor
  · rw [parseCondition]
    rw [fieldCondition_is rt (lodashGet V w) isC nm]
    cases h : Bool.xor (isMatchedTest isC (lodashGet V w)) nm <;>
      simp [h, positiveResult, negativeResult]
  · rw [parseCondition]
    have hfun : (fun f => fieldCondition rt (lodashGet V f) { is := isC, notMatch := nm }) =
        fun f => Bool.xor (isMatchedTest isC (lodashGet V f)) nm :=
      funext fun f => fieldCondition_is rt (lodashGet V f) isC nm
    rw [hfun]
    cases h : ws.any (fun f => Bool.xor (isMatchedTest isC (lodashGet V f)) nm) <;>
      simp [h, positiveResult, negativeResult]

/-- Claim C8 counterexample: a leaf carrying `is` together with
`isNotEmpty: true` is decided by the emptiness test, not the `is` test — the
leaf is visible on value `"b"` although the `is` test against `"a"` fails. -/
theorem C8_counterexample :
    (parseCondition rtFalse
        (.node none none none none (some (.single "x"))
          { is := .str "a", isNotEmpty := true } none none)
        (.obj [("x", .str "b")])).visible = true ∧
      Bool.xor (isMatchedTest (.str "a") (lodashGet (.obj [("x", .str "b")]) "x")) false =
        false :=
  ⟨rfl, rfl⟩

/-- Claim C9: a node matching no recognised variant (not an array, no
`and`/`sequence`/`or`/`not` tag, no string or array `when`) evaluates to the
default negative result — `visible`/`result` false with the `else` overrides
spread in — and, being a total function, never raises. -/
theorem C9_unrecognized_default :
    ∀ (rt : RegexTest) (v : JSValue) (t : FieldTest) (thenC elseC : Option COverride),
      parseCondition rt (.node none none none none none t thenC elseC) v =
        negativeResult elseC := by
  intro rt v t thenC elseC
  rfl

/-- Claim C10: an `and` node with an empty child list and a bare empty-array
expression evaluate to the positive result (visible and result both true),
while an `or` node with an empty child list evaluates to the negative result:
empty conjunctions are vacuously true, empty disjunctions false. -/
theorem C10_empty_connectives :
    ∀ (rt : RegexTest) (v : JSValue),
      parseCondition rt (.node (some []) none none none none {} none none) v =
          { visible := true, result := true, set := none, sets := none } ∧
      parseCondition rt (.list []) v =
          { visible := true, result := true, set := none, sets := none } ∧
      parseCondition rt (.node none none (some []) none none {} none none) v =
          { visible := false, result := false, set := none, sets := none } := by
  intro rt v
  exact ⟨rfl, rfl, rfl⟩

/-- Claim C1: a satisfied node takes the positive shape and a failed node the
negative shape, where the `then`/`else` overrides (including `set`) take
precedence over the default `visible` field — amended: the `result` field is
written after the spread in the source, so it is always `true`/`false` and
cannot be overridden by the spread. -/
theorem C1_result_shaping :
    ∀ (o : COverride) (rt : RegexTest) (v : JSValue) (andC orC : Option (List Cond))
      (notC : Option Cond) (whenC : Option WhenProp) (t : FieldTest)
      (thenC elseC : Option COverride),
      ((positiveResult (some o)).visible = o.visible.getD true ∧
        (positiveResult (some o)).set = o.set ∧
        (positiveResult (some o)).result = true) ∧
      ((negativeResult (some o)).visible = o.visible.getD false ∧
        (negativeResult (some o)).set = o.set ∧
        (negativeResult (some o)).result = false) ∧
      (parseCondition rt (.node andC none orC notC whenC t thenC elseC) v =
          positiveResult thenC ∨
        parseCondition rt (.node andC none orC notC whenC t thenC elseC) v =
          negativeResult elseC) := by
  intro o rt v andC orC notC whenC t thenC elseC
  refine ⟨⟨rfl, rfl, rfl⟩, ⟨rfl, rfl, rfl⟩, ?_⟩
  cases andC with
  | some cs =>
      rw [parseCondition]
      split
      · exact Or.inr rfl
      · exact Or.inl rfl
  | none =>
      cases orC with
      | some cs =>
          rw [parseCondition]
          split
          · exact Or.inl rfl
          · exact Or.inr rfl
      | none =>
          cases notC with
          | some c =>
              rw [parseCondition]
              split
              · exact Or.inl rfl
              · exact Or.inr rfl
          | none =>
              cases whenC with
              | some w =>
                  cases w with
                  | single s =>
                      rw [parseCondition]
                      split
                      · exact Or.inl rfl
                      · exact Or.inr rfl
                  | multi ws =>
                      rw [parseCondition]
                      split
                      · exact Or.inl rfl
                      · exact Or.inr rfl
              | none => exact Or.inr rfl

/-- Claim C1 counterexample: on a satisfied leaf whose `then` carries a
`result: false` key, the code still yields `result = true` (the default is
re-asserted after the spread), while the claim's spread-last shape would
yield `result = false`. -/
theorem C1_counterexample :
    (parseCondition rtFalse
        (.node none none none none (some (.single "x")) { is := .str "a" }
          (some { result := some false }) none)
        (.obj [("x", .str "a")])).result = true ∧
      (specPositiveSpreadLast (some { result := some false })).result = false :=
  ⟨rfl, rfl⟩

/-- Claim C2: when the form's dirty flag transitions to false the runtime
state is reset to `initial = true` — amended: the remembered sets are
retained, not cleared; the next evaluation with a non-empty candidate list
still always commits it (even when deep-equal to the remembered list),
because `initial = true` short-circuits both equality checks. -/
theorem C2_reset_semantics :
    ∀ (s : RuntimeState) (ss : List SetMap), ss ≠ [] →
      (onDirtyChange false s).initial = true ∧
      (onDirtyChange false s).sets = s.sets ∧
      (runCommit (onDirtyChange false s) (some ss)).1 = ss := by
  intro s ss hss
  refine ⟨rfl, rfl, ?_⟩
  have hlen : (decide (ss.length > 0)) = true := by
    simp [List.length_pos, hss]
  show (runCommit { s with initial := true } (some ss)).1 = ss
  rw [runCommit]
  rw [if_pos (by simp [hlen])]
  exact commitBatches_initial _ rfl ss

/-- Claim C2 counterexample: the `formResetted` reducer action leaves the
remembered `sets` in place — the state after a reset is not the cleared
state the claim describes. -/
theorem C2_counterexample :
    (reducer { sets := [[("x", JSValue.num 1)]], initial := false } .formResetted).sets =
        [[("x", JSValue.num 1)]] ∧
      reducer { sets := [[("x", JSValue.num 1)]], initial := false } .formResetted ≠
        specClearedState := by
  refine ⟨rfl, fun h => ?_⟩
  have hs := congrArg RuntimeState.sets h
  simp [reducer, specClearedState] at hs

/-- Witness for C2 at a concrete state and candidate list. -/
theorem C2_reset_semantics_witness :
    (onDirtyChange false { sets := [[("a", JSValue.num 1)]], initial := false }).initial = true ∧
    (onDirtyChange false { sets := [[("a", JSValue.num 1)]], initial := false }).sets =
      ({ sets := [[("a", JSValue.num 1)]], initial := false } : RuntimeState).sets ∧
    (runCommit (onDirtyChange false { sets := [[("a", JSValue.num 1)]], initial := false })
        (some [[("a", JSValue.num 1)]])).1 = [[("a", JSValue.num 1)]] :=
  C2_reset_semantics { sets := [[("a", JSValue.num 1)]], initial := false }
    [[("a", JSValue.num 1)]] (List.cons_ne_nil _ _)

/-- Claim C3: writes of one evaluation pass are deferred and batched —
amended: batching is per assignment map, not per pass: every scheduled batch
is one of the pass's assignment maps (whose writes are exactly that map's
entries), scheduled in candidate order, and an initial-state pass schedules
one batch per candidate map; a pass with several maps therefore issues
several batch calls, not a single one. -/
theorem C3_batching :
    ∀ (s : RuntimeState) (os : Option (List SetMap)),
      ((runCommit s os).1).Sublist (os.getD []) ∧
      (∀ ss : List SetMap, s.initial = true → ss ≠ [] →
        (runCommit s (some ss)).1 = ss) := by
  intro s os
  constructor
  · cases os with
    | none => exact List.nil_sublist _
    | some ss =>
        rw [runCommit]
        split
        · exact commitBatches_sublist s ss
        · exact List.nil_sublist _
  · intro ss hin hss
    rw [runCommit]
    rw [if_pos (by simp [List.length_pos, hss, hin])]
    exact commitBatches_initial _ hin ss

/-- Claim C3 counterexample: an initial-state pass whose evaluation produced
two assignment maps schedules two separate batch calls — the writes of the
pass are not grouped into a single batch. -/
theorem C3_counterexample :
    (runCommit { sets := [], initial := true }
        (some [[("x", JSValue.num 1)], [("y", JSValue.num 2)]])).1 =
      [[("x", JSValue.num 1)], [("y", JSValue.num 2)]] ∧
    ((runCommit { sets := [], initial := true }
        (some [[("x", JSValue.num 1)], [("y", JSValue.num 2)]])).1).length ≠ 1 := by
  exact ⟨rfl, by decide⟩

/-- Witness for C3 at a concrete state and candidate. -/
theorem C3_batching_witness :
    ((runCommit { sets := [], initial := true } (some [[("x", JSValue.num 1)]])).1).Sublist
        ((some [[("x", JSValue.num 1)]]).getD []) ∧
    (runCommit { sets := [], initial := true } (some [[("x", JSValue.num 1)]])).1 =
      [[("x", JSValue.num 1)]] :=
  ⟨(C3_batching { sets := [], initial := true } (some [[("x", JSValue.num 1)]])).1,
    (C3_batching { sets := [], initial := true } (some [[("x", JSValue.num 1)]])).2
      [[("x", JSValue.num 1)]] rfl (List.cons_ne_nil _ _)⟩

/-- Claim C5: a candidate list is applied only when it is non-empty and
either the state is initial or it differs from the remembered list; after a
pass commits and remembers, re-running the very same evaluation (unchanged
expression and values) schedules no further write. -/
theorem C5_idempotent_commit :
    ∀ (rt : RegexTest) (c : Cond) (v : JSValue) (s : RuntimeState),
      (evalPass rt c v (evalPass rt c v s).2).1 = [] ∧
      (∀ ss : List SetMap, (runCommit s (some ss)).1 ≠ [] →
        ss ≠ [] ∧ (s.initial = true ∨ setsListEq ss s.sets = false)) := by
  intro rt c v s
  constructor
  · unfold evalPass
    cases hos : computeSetters (parseCondition rt c v) with
    | none => rfl
    | some ss =>
        by_cases hg :
            (decide (ss.length > 0) && (s.initial || !setsListEq ss s.sets)) = true
        · have h2 : (runCommit s (some ss)).2 = { s with initial := false, sets := ss } := by
            rw [runCommit, if_pos hg]
            rfl
          rw [h2, runCommit]
          rw [if_neg (by simp [setsListEq_refl ss])]
        · have h2 : (runCommit s (some ss)).2 = s := by
            rw [runCommit, if_neg hg]
          rw [h2, runCommit, if_neg hg]
  · intro ss h
    rw [runCommit] at h
    by_cases hg :
        (decide (ss.length > 0) && (s.initial || !setsListEq ss s.sets)) = true
    · have h1 : ss.length > 0 := by
        have := (Bool.and_eq_true _ _).mp hg
        simpa using this.1
      have h2 : s.initial = true ∨ setsListEq ss s.sets = false := by
        have := ((Bool.and_eq_true _ _).mp hg).2
        rcases Bool.or_eq_true_iff.mp this with hi | hn
        · exact Or.inl hi
        · exact Or.inr (by simpa using hn)
      exact ⟨List.ne_nil_of_length_pos h1, h2⟩
    · rw [if_neg hg] at h
      exact absurd rfl h

/-- Witness for C5: an `isEmpty` leaf with a `then` `set` commits once from
the initial state and is suppressed on the identical re-evaluation. -/
theorem C5_idempotent_commit_witness :
    (evalPass rtFalse
        (.node none none none none (some (.single "age")) { isEmpty := true }
          (some { set := some [("category", JSValue.str "unknown")] }) none)
        (.obj [])
        (evalPass rtFalse
          (.node none none none none (some (.single "age")) { isEmpty := true }
            (some { set := some [("category", JSValue.str "unknown")] }) none)
          (.obj []) { sets := [], initial := true }).2).1 = [] ∧
    ([[("category", JSValue.str "unknown")]] : List SetMap) ≠ [] ∧
      (({ sets := [], initial := true } : RuntimeState).initial = true ∨
        setsListEq [[("category", JSValue.str "unknown")]]
          ({ sets := [], initial := true } : RuntimeState).sets = false) :=
  ⟨(C5_idempotent_commit rtFalse
      (.node none none none none (some (.single "age")) { isEmpty := true }
        (some { set := some [("category", JSValue.str "unknown")] }) none)
      (.obj []) { sets := [], initial := true }).1,
    (C5_idempotent_commit rtFalse
      (.node none none none none (some (.single "age")) { isEmpty := true }
        (some { set := some [("category", JSValue.str "unknown")] }) none)
      (.obj []) { sets := [], initial := true }).2
      [[("category", JSValue.str "unknown")]] (List.cons_ne_nil _ _)⟩

theorem seqFold_eq (rt : RegexTest) (v : JSValue) (cs : List Cond) :
    ∀ acc : EvalResult, cs ≠ [] →
      seqFold rt v acc cs =
        { visible := acc.visible || (parseCondList rt cs v).any (fun r => r.visible)
          result := acc.result || (parseCondList rt cs v).any (fun r => r.result)
          set := none
          sets := some ((acc.sets.getD []) ++
            (parseCondList rt cs v).filterMap (fun r => r.set)) } := by
  induction cs with
  | nil => intro acc h; exact absurd rfl h
  | cons c cstl ih =>
      intro acc _
      rw [seqFold]
      by_cases h : cstl = []
      · subst h
        rw [seqFold]
        cases hset : (parseCondition rt c v).set <;>
          simp [parseCondList, List.filterMap_cons, hset, EvalResult.mk.injEq]
      · rw [ih _ h]
        cases hset : (parseCondition rt c v).set <;>
          simp [parseCondList, List.any_cons, List.filterMap_cons, hset,
            EvalResult.mk.injEq, Bool.or_assoc, List.append_assoc]

/-- Claim C4: a `sequence` node folds its children in order, `result` is the
OR of the children's `result` flags and `sets` accumulates, in child order,
exactly the `set` maps present on children's results — amended: the fold
starts from the node's own negative result, so `visible` is the node's
`else` visible override (default false) OR'd with the children's `visible`
flags, not the children's OR alone (and an empty sequence keeps the `else`
`set`). -/
theorem C4_sequence_eval :
    ∀ (rt : RegexTest) (v : JSValue) (cs : List Cond) (orC : Option (List Cond))
      (notC : Option Cond) (whenC : Option WhenProp) (t : FieldTest)
      (thenC elseC : Option COverride),
      parseCondition rt (.node none (some cs) orC notC whenC t thenC elseC) v =
        { visible := ((elseC.bind COverride.visible).getD false) ||
            (parseCondList rt cs v).any (fun r => r.visible)
          result := (parseCondList rt cs v).any (fun r => r.result)
          set := if cs.isEmpty then elseC.bind COverride.set else none
          sets := some ((parseCondList rt cs v).filterMap (fun r => r.set)) } := by
  intro rt v cs orC notC whenC t thenC elseC
  rw [parseCondition]
  cases cs with
  | nil =>
      rw [seqFold]
      simp [parseCondList, negativeResult, EvalResult.mk.injEq]
  | cons c cstl =>
      rw [seqFold_eq rt v (c :: cstl) _ (List.cons_ne_nil c cstl)]
      simp [negativeResult, EvalResult.mk.injEq]

/-- Claim C4 counterexample: a `sequence` node whose `else` carries
`visible: true` is visible even though no child is visible — the node's
`visible` is not the OR of the children's `visible` flags. -/
theorem C4_counterexample :
    (parseCondition rtFalse
        (.node none
          (some [.node none none none none (some (.single "x")) { is := .str "a" }
            none none])
          none none none {} none (some { visible := some true }))
        (.obj [])).visible = true ∧
      ((parseCondList rtFalse
          [.node none none none none (some (.single "x")) { is := .str "a" } none none]
          (.obj [])).any (fun r => r.visible)) = false :=
  ⟨rfl, rfl⟩

/-- Claim C6: the connectives combine the children's `result` flags —
amended: an `and` node (or bare array) is satisfied iff every child's
`result` is true, an `or` node iff some child's `result` is true, a `not`
node iff its child's `result` is false; the node then takes its own
positive/negative shape, whose `visible` is the default true/false possibly
overridden by the node's own `then`/`else`, not the boolean combination of
the children's `visible` flags. -/
theorem C6_connectives :
    ∀ (rt : RegexTest) (v : JSValue) (cs : List Cond) (c : Cond)
      (seqC orC2 : Option (List Cond)) (notC2 : Option Cond)
      (whenC : Option WhenProp) (t : FieldTest) (thenC elseC : Option COverride),
      (parseCondition rt (.node (some cs) seqC orC2 notC2 whenC t thenC elseC) v =
        if (parseCondList rt cs v).all (fun r => r.result) then positiveResult thenC
        else negativeResult elseC) ∧
      (parseCondition rt (.list cs) v =
        if (parseCondList rt cs v).all (fun r => r.result) then positiveResult none
        else negativeResult none) ∧
      (parseCondition rt (.node none none (some cs) notC2 whenC t thenC elseC) v =
        if (parseCondList rt cs v).any (fun r => r.result) then positiveResult thenC
        else negativeResult elseC) ∧
      (parseCondition rt (.node none none none (some c) whenC t thenC elseC) v =
        if (parseCondition rt c v).result then negativeResult elseC
        else positiveResult thenC) := by
  intro rt v cs c seqC orC2 notC2 whenC t thenC elseC
  refine ⟨?_, ?_, ?_, ?_⟩
  · rw [parseCondition, any_result_false_eq]
    cases h : (parseCondList rt cs v).all (fun r => r.result) <;> simp [h]
  · rw [parseCondition, any_result_false_eq]
    cases h : (parseCondList rt cs v).all (fun r => r.result) <;> simp [h]
  · rw [parseCondition, any_result_true_eq]
  · rw [parseCondition]
    cases h : (parseCondition rt c v).result <;> simp [h]

/-- Claim C6 counterexample: an `and` node over one satisfied child whose
`then` sets `visible: false` — every child has `result` true but `visible`
false, yet the `and` node is visible, so node visibility is not the
conjunction of child visibility. -/
theorem C6_counterexample :
    (parseCondition rtFalse
        (.node (some [.node none none none none (some (.single "f")) { is := .num 1 }
          (some { visible := some false }) none])
          none none none none {} none none)
        (.obj [("f", JSValue.num 1)])).visible = true ∧
      ((parseCondList rtFalse
          [.node none none none none (some (.single "f")) { is := .num 1 }
            (some { visible := some false }) none]
          (.obj [("f", JSValue.num 1)])).all (fun r => r.visible)) = false :=
  ⟨rfl, rfl⟩
